import Mathlib

/-!
Verification of the VLE / McCabe-Thiele distillation core.

Shallow embedding over exact rational arithmetic (ℚ) of the two computational
engines:

* McCabe_Thiele_App.py — equilibrium model (constant relative volatility
  α = 2.4), overall material balance, minimum-reflux computation with its
  fallback, operating-line construction, and the stage-stepping loops of
  calculate_stages (hard iteration cap 50).
* MyVLEPlayground.py — phase classification (P-x-y and T-x-y modes) and the
  lever rule, with the boundary values (bubble/dew pressures or temperatures)
  abstracted as inputs, since in the source they are produced by Antoine-type
  transcendental formulas and root-finding or table interpolation.

Python floating point is modelled by ℚ; a Python ZeroDivisionError (or a NaN
produced by dividing numpy floats by zero) is modelled by an Option-valued
function returning none.  scipy.optimize.fsolve calls are modelled by their
idealised exact results: the root-finding on the linear function
find_feed_intersection is replaced by the closed-form solution of the linear
equation, and the root of the nonlinear feed_eq_intersection is abstracted as
a parameter (constrained to be an exact root where a theorem needs it).
-/

namespace ChemEng

/-! ### Equilibrium model (McCabe_Thiele_App.py, lines 9-20) -/

/-- Python: `alpha = 2.4`, the relative volatility of acetone to ethanol. -/
def alpha : ℚ := 12/5

/-- Python `equilibrium_curve(x) = (alpha * x) / (1 + (alpha - 1) * x)`. -/
def equilibrium_curve (x : ℚ) : ℚ := (alpha * x) / (1 + (alpha - 1) * x)

/-- Python `x_from_y_equilibrium(y) = y / (alpha - y * (alpha - 1))`. -/
def x_from_y_equilibrium (y : ℚ) : ℚ := y / (alpha - y * (alpha - 1))

/-! ### Material balance (McCabe_Thiele_App.py, lines 89-90)

`D = F * (x_f - x_b) / (x_d - x_b); B = F - D`.  The division is unguarded in
the source: with `x_d == x_b` the Python floats raise ZeroDivisionError, which
we model as `none`.  No composition-ordering validation of any kind appears in
the source. -/

def material_balance (F x_f x_d x_b : ℚ) : Option (ℚ × ℚ) :=
  if x_d - x_b = 0 then none
  else
    let D := F * (x_f - x_b) / (x_d - x_b)
    some (D, F - D)

/-! ### Minimum reflux (McCabe_Thiele_App.py, lines 112-117) -/

/-- Python lines 112-114: `R_min = (x_d - y_intersect) / (y_intersect -
x_intersect); if R_min < 0: R_min = 0.5`. -/
def R_min_calc (x_d y_intersect x_intersect : ℚ) : ℚ :=
  let r := (x_d - y_intersect) / (y_intersect - x_intersect)
  if r < 0 then 1/2 else r

/-- Python line 117: `R = R_factor * R_min`. -/
def R_actual (R_factor x_d y_intersect x_intersect : ℚ) : ℚ :=
  R_factor * R_min_calc x_d y_intersect x_intersect

/-! ### Feed line (McCabe_Thiele_App.py, lines 99-102 and 129-132)

`y = q/(q-1) * x - x_f/(q-1)`: the division by `q-1` is unguarded; at `q = 1`
the Python floats raise ZeroDivisionError, modelled as `none`. -/

def feed_line_y (q x_f x : ℚ) : Option ℚ :=
  if q - 1 = 0 then none
  else some (q/(q-1) * x - x_f/(q-1))

/-- Python `feed_eq_intersection(x) = y_feed - y_eq` (lines 99-102), the
residual handed to fsolve. -/
def feed_eq_intersection (q x_f x : ℚ) : Option ℚ :=
  (feed_line_y q x_f x).map (fun y_feed => y_feed - equilibrium_curve x)

/-! ### Stage stepping (McCabe_Thiele_App.py, lines 173-252) -/

/-- The value of the Python string field `'Section'` of a stage row. -/
inductive SectionTag
  | Rectifying
  | Stripping
deriving DecidableEq, Repr

/-- One row appended to `stages_data` (Python dict literal, lines 208-215 and
237-244), with the same field order. -/
structure Stage where
  stage : ℕ
  sectionTag : SectionTag
  x_liquid : ℚ
  y_vapor : ℚ
  x_next : ℚ
  y_next : ℚ
deriving DecidableEq, Repr

/-- The eight arguments of Python `calculate_stages`. -/
structure StageParams where
  x_d : ℚ
  x_b : ℚ
  x_feed_intersect : ℚ
  y_feed_intersect : ℚ
  slope_rect : ℚ
  intercept_rect : ℚ
  slope_strip : ℚ
  intercept_strip : ℚ
deriving DecidableEq, Repr

/-- The mutable local variables of `calculate_stages` between iterations. -/
structure StepState where
  x_current : ℚ
  y_current : ℚ
  stage_num : ℕ
  stages_rect : ℕ
  stages_strip : ℕ
  feed_stage : Option ℕ
  stages_data : List Stage
deriving DecidableEq, Repr

/-- The first while loop of `calculate_stages` (lines 189-221).  The fuel
argument carries the `stage_num < 50` half of the loop guard: every call made
by `calculate_stages` maintains `fuel = 50 - stage_num`, so exhausting the
fuel is exactly the hard iteration cap of the source.  The mid-loop `break`
(line 220-221) is the trailing `if` on `s'.x_current`. -/
def rectLoop (p : StageParams) : ℕ → StepState → StepState
  | 0, s => s
  | fuel + 1, s =>
    if p.x_feed_intersect < s.x_current then
      let sn := s.stage_num + 1
      let x_new := x_from_y_equilibrium s.y_current
      if p.x_feed_intersect ≤ x_new then
        let y_new := p.slope_rect * x_new + p.intercept_rect
        let s' : StepState :=
          ⟨x_new, y_new, sn, s.stages_rect + 1, s.stages_strip, s.feed_stage,
            s.stages_data ++ [⟨sn, .Rectifying, x_new, s.y_current, s.x_current, y_new⟩]⟩
        if s'.x_current ≤ p.x_b * (101/100) then s' else rectLoop p fuel s'
      else
        let y_new := p.slope_strip * x_new + p.intercept_strip
        let s' : StepState :=
          ⟨x_new, y_new, sn, s.stages_rect, s.stages_strip + 1, some sn,
            s.stages_data ++ [⟨sn, .Stripping, x_new, s.y_current, s.x_current, y_new⟩]⟩
        if s'.x_current ≤ p.x_b * (101/100) then s' else rectLoop p fuel s'
    else s

/-- The second while loop of `calculate_stages` (lines 227-250).  Its final
`break` (lines 249-250) re-tests exactly the loop guard and is therefore
absorbed into it.  Fuel as in `rectLoop`. -/
def stripLoop (p : StageParams) : ℕ → StepState → StepState
  | 0, s => s
  | fuel + 1, s =>
    if p.x_b * (101/100) < s.x_current then
      let sn := s.stage_num + 1
      let x_new := x_from_y_equilibrium s.y_current
      let y_new := p.slope_strip * x_new + p.intercept_strip
      let s' : StepState :=
        ⟨x_new, y_new, sn, s.stages_rect, s.stages_strip + 1, s.feed_stage,
          s.stages_data ++ [⟨sn, .Stripping, x_new, s.y_current, s.x_current, y_new⟩]⟩
      stripLoop p fuel s'
    else s

/-- The quadruple returned by Python `calculate_stages` (line 252). -/
structure StagesResult where
  stages_rect : ℕ
  stages_strip : ℕ
  feed_stage : Option ℕ
  stages_data : List Stage
deriving DecidableEq, Repr

/-- Python `calculate_stages` (lines 173-252): start from the distillate at
`(x_d, x_d)` (total condenser), run the rectifying loop, default the feed
stage to `stages_rect` if the section switch never happened (lines 224-225),
then run the stripping loop. -/
def calculate_stages (p : StageParams) : StagesResult :=
  let s0 : StepState := ⟨p.x_d, p.x_d, 0, 0, 0, none, []⟩
  let s1 := rectLoop p 50 s0
  let fs := match s1.feed_stage with
    | none => some s1.stages_rect
    | some f => some f
  let s2 := stripLoop p (50 - s1.stage_num)
    ⟨s1.x_current, s1.y_current, s1.stage_num, s1.stages_rect, s1.stages_strip, fs,
      s1.stages_data⟩
  ⟨s2.stages_rect, s2.stages_strip, s2.feed_stage, s2.stages_data⟩

/-- The operating line used for the horizontal step of a stage, by section:
rectifying `y = slope_rect*x + intercept_rect` (line 198), stripping
`y = slope_strip*x + intercept_strip` (lines 202 and 235). -/
def op_value (p : StageParams) : SectionTag → ℚ → ℚ
  | .Rectifying, x => p.slope_rect * x + p.intercept_rect
  | .Stripping, x => p.slope_strip * x + p.intercept_strip

/-- Python `calculate_design` (lines 77-171) restricted to its numeric core
producing the stage counts.  The fsolve call on the nonlinear residual
`feed_eq_intersection` is abstracted by the parameter `x_intersect` (the
exact root it idealises); the fsolve call on the linear residual
`find_feed_intersection` (lines 129-135) is replaced by the closed-form
solution of `slope_rect*x + intercept_rect = q/(q-1)*x - x_f/(q-1)`.
Assumes `q ≠ 1`: at `q = 1` both residuals raise ZeroDivisionError and the
source falls back to `x_intersect = x_f` (lines 104-109, 134-139). -/
def calculate_design_stages (x_f x_d x_b q R_factor x_intersect : ℚ) : StagesResult :=
  let y_intersect := equilibrium_curve x_intersect
  let R := R_factor * R_min_calc x_d y_intersect x_intersect
  let slope_rect := R / (R + 1)
  let intercept_rect := x_d / (R + 1)
  let x_feed_intersect := (intercept_rect + x_f/(q-1)) / (q/(q-1) - slope_rect)
  let y_feed_intersect := slope_rect * x_feed_intersect + intercept_rect
  let slope_strip :=
    if x_feed_intersect ≠ x_b then (y_feed_intersect - x_b) / (x_feed_intersect - x_b)
    else 1
  let intercept_strip := x_b - slope_strip * x_b
  calculate_stages ⟨x_d, x_b, x_feed_intersect, y_feed_intersect,
    slope_rect, intercept_rect, slope_strip, intercept_strip⟩

/-- The relation between consecutive emitted stage rows: each row's
`x_next`/`y_vapor` are the previous row's `x_liquid`/`y_next`, i.e. the
current point before the step. -/
def stage_link (a b : Stage) : Prop := b.x_next = a.x_liquid ∧ b.y_vapor = a.y_next

/-- Invariant of the stepping loops relating the emitted rows to the running
point, with `(x0, y0)` the starting point of the walk. -/
def RecInv (p : StageParams) (x0 y0 : ℚ) (s : StepState) : Prop :=
  (∀ r ∈ s.stages_data, r.x_liquid = x_from_y_equilibrium r.y_vapor ∧
      r.y_next = op_value p r.sectionTag r.x_liquid) ∧
  List.Chain' stage_link s.stages_data ∧
  (∀ r, s.stages_data.getLast? = some r → r.x_liquid = s.x_current ∧ r.y_next = s.y_current) ∧
  (s.stages_data = [] → s.x_current = x0 ∧ s.y_current = y0) ∧
  (∀ r, s.stages_data.head? = some r → r.x_next = x0 ∧ r.y_vapor = y0)

/-- A concrete parameter set for `calculate_stages`: distillate 0.9, bottoms
0.1, feed intersection (1/2, 7/10) lying on the rectifying line
y = x/2 + 9/20 (the line through (0.9, 0.9) with R = 1), stripping line
through (0.1, 0.1) and the feed intersection. -/
def stageParamsA : StageParams := ⟨9/10, 1/10, 1/2, 7/10, 1/2, 9/20, 3/2, -1/20⟩

/-! ### Flash classification and lever rule (MyVLEPlayground.py) -/

/-- The Python `phase` string of `calculate_phase_equilibrium`. -/
inductive Phase
  | liquid
  | vapor
  | twoPhase
deriving DecidableEq, Repr

/-- The if/elif classification of the isothermal P-x-y branch (lines
166-180).  The bubble and dew pressures are inputs here: the source computes
them from the Antoine vapor-pressure model at `(z, T)` (transcendental, lines
162-163), which does not affect the comparison logic under test. -/
def classify_pxy (P_point P_bubble P_dew : ℚ) : Phase :=
  if P_point < P_dew then .vapor
  else if P_bubble < P_point then .liquid
  else .twoPhase

/-- The if/elif classification of the isobaric T-x-y branch (lines 216-230),
with the interpolated bubble/dew temperatures as inputs. -/
def classify_txy (T_point T_bubble T_dew : ℚ) : Phase :=
  if T_dew < T_point then .vapor
  else if T_point < T_bubble then .liquid
  else .twoPhase

/-- Lever rule of the isothermal two-phase branch (line 192):
`vapor_fraction = (y_vapor - z) / (y_vapor - x_liquid)` with an unguarded
division; `y_vapor == x_liquid` produces no finite result, modelled `none`. -/
def vapor_fraction_pxy (z x_liquid y_vapor : ℚ) : Option ℚ :=
  if y_vapor - x_liquid = 0 then none
  else some ((y_vapor - z) / (y_vapor - x_liquid))

/-- Lever rule of the isobaric two-phase branch (lines 243-246): guarded by
`if y_vapor != x_liquid`, with fallback 0.5. -/
def vapor_fraction_txy (z x_liquid y_vapor : ℚ) : ℚ :=
  if y_vapor ≠ x_liquid then (y_vapor - z) / (y_vapor - x_liquid)
  else 1/2

/-- Python `px_function(x, temp) = x * psat1(temp) + (1 - x) * psat2(temp)`
(lines 21-23), the bubble-point pressure, with the transcendental Antoine
vapor pressures `psat1(temp)`, `psat2(temp)` abstracted as the positive
parameters p1, p2. -/
def px_function (p1 p2 x : ℚ) : ℚ := x * p1 + (1 - x) * p2

/-- Python `py_function(x, temp) = 1 / (x/psat1(temp) + (1-x)/psat2(temp))`
(lines 25-27), the dew-point pressure, abstracted as `px_function`. -/
def py_function (p1 p2 x : ℚ) : ℚ := 1 / (x/p1 + (1-x)/p2)

end ChemEng

namespace ChemEng

/-! ### Claim C1: material balance values and conservation -/

/-- C1: with x_d ≠ x_b the material balance returns
D = F*(x_f - x_b)/(x_d - x_b) and B = F - D, and these satisfy D + B = F and
F*x_f = D*x_d + B*x_b exactly; for F=100, x_f=1/2, x_b=1/20, x_d=19/20 it
returns D = 50 and B = 50. -/
theorem material_balance_conservation (F x_f x_d x_b : ℚ) (h : x_d ≠ x_b) :
    material_balance F x_f x_d x_b =
      some (F * (x_f - x_b) / (x_d - x_b), F - F * (x_f - x_b) / (x_d - x_b)) ∧
    (∀ D B : ℚ, material_balance F x_f x_d x_b = some (D, B) →
      D + B = F ∧ F * x_f = D * x_d + B * x_b) ∧
    material_balance 100 (1/2) (19/20) (1/20) = some (50, 50) := by
  have hsub : x_d - x_b ≠ 0 := sub_ne_zero.mpr h
  refine ⟨by simp [material_balance, hsub], ?_, by norm_num [material_balance]⟩
  intro D B hDB
  simp only [material_balance, hsub, if_neg hsub] at hDB
  obtain ⟨hD, hB⟩ := Prod.mk.injEq .. ▸ Option.some.injEq .. ▸ hDB
  constructor
  · rw [← hD, ← hB]; ring
  · rw [← hD, ← hB]
    field_simp
    ring

/-- Witness for C1 at F=100, x_f=1/2, x_d=19/20, x_b=1/20. -/
theorem material_balance_conservation_witness :
    material_balance 100 (1/2) (19/20) (1/20) = some (50, 50) ∧
    (50 : ℚ) + 50 = 100 ∧ (100 : ℚ) * (1/2) = 50 * (19/20) + 50 * (1/20) := by
  have h := material_balance_conservation 100 (1/2) (19/20) (1/20) (by norm_num)
  exact ⟨h.2.2, (h.2.1 50 50 h.2.2).1, (h.2.1 50 50 h.2.2).2⟩

/-! ### Claim C2: equilibrium round-trip -/

/-- C2: for the relative-volatility model with α = 2.4, for every x in (0,1),
`x_from_y_equilibrium (equilibrium_curve x) = x` exactly. -/
theorem equilibrium_roundtrip (x : ℚ) (h0 : 0 < x) (h1 : x < 1) :
    x_from_y_equilibrium (equilibrium_curve x) = x := by
  have hden : 1 + (alpha - 1) * x ≠ 0 := by
    have : (0 : ℚ) < 1 + (alpha - 1) * x := by
      have : (0 : ℚ) < (alpha - 1) * x := by
        apply mul_pos _ h0
        norm_num [alpha]
      linarith
    exact ne_of_gt this
  unfold x_from_y_equilibrium equilibrium_curve
  have halpha : (alpha : ℚ) ≠ 0 := by norm_num [alpha]
  have key : alpha - alpha * x / (1 + (alpha - 1) * x) * (alpha - 1) =
      alpha / (1 + (alpha - 1) * x) := by
    field_simp
    ring
  rw [key, div_div_div_cancel_right₀]
  · exact mul_div_cancel_left₀ x halpha
  · exact hden

/-- Witness for C2 at x = 1/2: the round trip through y = 12/17 returns 1/2. -/
theorem equilibrium_roundtrip_witness :
    x_from_y_equilibrium (equilibrium_curve (1/2)) = 1/2 :=
  equilibrium_roundtrip (1/2) (by norm_num) (by norm_num)

/-! ### Claim C4: minimum reflux and its fallback -/

/-- C4: R_min is (x_d - y*)/(y* - x*) when that value is non-negative and the
fallback 1/2 when it is negative, and the actual reflux is always
R_factor * R_min. -/
theorem rmin_fallback_spec (R_factor x_d ys xs : ℚ) :
    (0 ≤ (x_d - ys) / (ys - xs) →
      R_min_calc x_d ys xs = (x_d - ys) / (ys - xs)) ∧
    ((x_d - ys) / (ys - xs) < 0 → R_min_calc x_d ys xs = 1/2) ∧
    R_actual R_factor x_d ys xs = R_factor * R_min_calc x_d ys xs := by
  refine ⟨fun h => ?_, fun h => ?_, rfl⟩
  · simp [R_min_calc, not_lt.mpr h]
  · simp [R_min_calc, h]

/-- Witness for C4: at (x_d, y*, x*) = (1, 3/4, 1/2) the ratio is 1 ≥ 0 and
R_min is 1; at (0, 3/4, 1/2) the ratio is -3 < 0 and R_min falls back to 1/2. -/
theorem rmin_fallback_spec_witness :
    R_min_calc 1 (3/4) (1/2) = 1 ∧ R_min_calc 0 (3/4) (1/2) = 1/2 := by
  constructor
  · have h := (rmin_fallback_spec 1 1 (3/4) (1/2)).1 (by norm_num)
    rw [h]; norm_num
  · exact (rmin_fallback_spec 1 0 (3/4) (1/2)).2.1 (by norm_num)

/-! ### Claim C6: q = 1 feed-line singularity -/

/-- C6: the feed line is evaluated as q/(q-1)*x - x_f/(q-1) with an unguarded
division by (q-1): for q ≠ 1 the residual function computes that formula, and
at q = 1 the division-by-zero branch is taken (the computation is not total
at q = 1, modelled by `none`). -/
theorem feed_line_singularity (q x_f x : ℚ) :
    (q ≠ 1 → feed_eq_intersection q x_f x =
      some (q/(q-1) * x - x_f/(q-1) - equilibrium_curve x)) ∧
    feed_eq_intersection 1 x_f x = none := by
  constructor
  · intro hq
    have : q - 1 ≠ 0 := sub_ne_zero.mpr hq
    simp [feed_eq_intersection, feed_line_y, this]
  · simp [feed_eq_intersection, feed_line_y]

/-- Witness for C6 at q = 3/2, x_f = 1/2, x = 1/2. -/
theorem feed_line_singularity_witness :
    feed_eq_intersection (3/2) (1/2) (1/2) =
      some ((3/2)/(3/2-1) * (1/2) - (1/2)/(3/2-1) - equilibrium_curve (1/2)) ∧
    feed_eq_intersection 1 (1/2) (1/2) = none :=
  ⟨(feed_line_singularity (3/2) (1/2) (1/2)).1 (by norm_num),
   (feed_line_singularity (3/2) (1/2) (1/2)).2⟩

/-! ### Loop invariants of the stage stepping -/

lemma rectLoop_stage_le (p : StageParams) (fuel : ℕ) (s : StepState) :
    (rectLoop p fuel s).stage_num ≤ s.stage_num + fuel := by
  induction fuel generalizing s with
  | zero => simp [rectLoop]
  | succ n ih =>
    simp only [rectLoop]
    split_ifs with h1 h2 h3 h4
    · simp only [StepState.stage_num]; omega
    · exact le_trans (ih _) (by simp only [StepState.stage_num]; omega)
    · simp only [StepState.stage_num]; omega
    · exact le_trans (ih _) (by simp only [StepState.stage_num]; omega)
    · omega

lemma stripLoop_stage_le (p : StageParams) (fuel : ℕ) (s : StepState) :
    (stripLoop p fuel s).stage_num ≤ s.stage_num + fuel := by
  induction fuel generalizing s with
  | zero => simp [stripLoop]
  | succ n ih =>
    simp only [stripLoop]
    split_ifs with h1
    · exact le_trans (ih _) (by simp only [StepState.stage_num]; omega)
    · omega

lemma rectLoop_counts (p : StageParams) (fuel : ℕ) (s : StepState)
    (hc : s.stages_rect + s.stages_strip = s.stage_num)
    (hl : s.stages_data.length = s.stage_num) :
    (rectLoop p fuel s).stages_rect + (rectLoop p fuel s).stages_strip =
      (rectLoop p fuel s).stage_num ∧
    (rectLoop p fuel s).stages_data.length = (rectLoop p fuel s).stage_num := by
  induction fuel generalizing s with
  | zero => simp only [rectLoop]; exact ⟨hc, hl⟩
  | succ n ih =>
    simp only [rectLoop]
    split_ifs with h1 h2 h3 h4
    · refine ⟨by simp only [StepState.stages_rect, StepState.stages_strip,
        StepState.stage_num]; omega, ?_⟩
      simp only [StepState.stages_data, StepState.stage_num, List.length_append,
        List.length_singleton]
      omega
    · exact ih _ (by simp only [StepState.stages_rect, StepState.stages_strip,
        StepState.stage_num]; omega)
        (by simp only [StepState.stages_data, StepState.stage_num,
          List.length_append, List.length_singleton]; omega)
    · refine ⟨by simp only [StepState.stages_rect, StepState.stages_strip,
        StepState.stage_num]; omega, ?_⟩
      simp only [StepState.stages_data, StepState.stage_num, List.length_append,
        List.length_singleton]
      omega
    · exact ih _ (by simp only [StepState.stages_rect, StepState.stages_strip,
        StepState.stage_num]; omega)
        (by simp only [StepState.stages_data, StepState.stage_num,
          List.length_append, List.length_singleton]; omega)
    · exact ⟨hc, hl⟩

lemma stripLoop_counts (p : StageParams) (fuel : ℕ) (s : StepState)
    (hc : s.stages_rect + s.stages_strip = s.stage_num)
    (hl : s.stages_data.length = s.stage_num) :
    (stripLoop p fuel s).stages_rect + (stripLoop p fuel s).stages_strip =
      (stripLoop p fuel s).stage_num ∧
    (stripLoop p fuel s).stages_data.length = (stripLoop p fuel s).stage_num := by
  induction fuel generalizing s with
  | zero => simp only [stripLoop]; exact ⟨hc, hl⟩
  | succ n ih =>
    simp only [stripLoop]
    split_ifs with h1
    · exact ih _ (by simp only [StepState.stages_rect, StepState.stages_strip,
        StepState.stage_num]; omega)
        (by simp only [StepState.stages_data, StepState.stage_num,
          List.length_append, List.length_singleton]; omega)
    · exact ⟨hc, hl⟩

/-! ### Claim C3: termination and the hard cap of 50 -/

/-- C3: stage stepping always terminates with a finite emitted sequence whose
length equals stagesRect + stagesStrip, and totalStages = stagesRect +
stagesStrip is at most the hard cap 50, for every input. -/
theorem stage_stepping_cap (p : StageParams) :
    (calculate_stages p).stages_data.length =
      (calculate_stages p).stages_rect + (calculate_stages p).stages_strip ∧
    (calculate_stages p).stages_rect + (calculate_stages p).stages_strip ≤ 50 ∧
    (calculate_stages p).stages_data.length ≤ 50 := by
  simp only [calculate_stages]
  have h1 := rectLoop_counts p 50 ⟨p.x_d, p.x_d, 0, 0, 0, none, []⟩ rfl rfl
  have h2 := rectLoop_stage_le p 50 ⟨p.x_d, p.x_d, 0, 0, 0, none, []⟩
  generalize rectLoop p 50 ⟨p.x_d, p.x_d, 0, 0, 0, none, []⟩ = s1 at h1 h2 ⊢
  have h3 := stripLoop_counts p (50 - s1.stage_num)
    ⟨s1.x_current, s1.y_current, s1.stage_num, s1.stages_rect, s1.stages_strip,
      match s1.feed_stage with
        | none => some s1.stages_rect
        | some f => some f, s1.stages_data⟩ h1.1 h1.2
  have h4 := stripLoop_stage_le p (50 - s1.stage_num)
    ⟨s1.x_current, s1.y_current, s1.stage_num, s1.stages_rect, s1.stages_strip,
      match s1.feed_stage with
        | none => some s1.stages_rect
        | some f => some f, s1.stages_data⟩
  generalize stripLoop p (50 - s1.stage_num)
    ⟨s1.x_current, s1.y_current, s1.stage_num, s1.stages_rect, s1.stages_strip,
      match s1.feed_stage with
        | none => some s1.stages_rect
        | some f => some f, s1.stages_data⟩ = s2 at h3 h4 ⊢
  have e2 : s1.stage_num ≤ 50 := by simpa using h2
  have h4' : s2.stage_num ≤ s1.stage_num + (50 - s1.stage_num) := h4
  have e4 : s2.stage_num ≤ 50 := by omega
  have hlen : s2.stages_data.length = s2.stages_rect + s2.stages_strip :=
    h3.2.trans h3.1.symm
  have hcap : s2.stages_rect + s2.stages_strip ≤ 50 := h3.1.trans_le e4
  exact ⟨hlen, hcap, hlen ▸ hcap⟩

/-! ### Record-field invariants of the stepping loops -/

lemma RecInv_append (p : StageParams) (x0 y0 : ℚ) (s : StepState)
    (h : RecInv p x0 y0 s) (tag : SectionTag) (sn a b : ℕ) (fs : Option ℕ) :
    RecInv p x0 y0
      ⟨x_from_y_equilibrium s.y_current,
        op_value p tag (x_from_y_equilibrium s.y_current), sn, a, b, fs,
        s.stages_data ++ [⟨sn, tag, x_from_y_equilibrium s.y_current, s.y_current,
          s.x_current, op_value p tag (x_from_y_equilibrium s.y_current)⟩]⟩ := by
  obtain ⟨hAll, hChain, hLast, hEmpty, hHead⟩ := h
  refine ⟨?_, ?_, ?_, ?_, ?_⟩
  · intro r hr
    simp only [StepState.stages_data, List.mem_append, List.mem_singleton] at hr
    rcases hr with hr | rfl
    · exact hAll r hr
    · exact ⟨rfl, rfl⟩
  · refine List.Chain'.append hChain (List.chain'_singleton _) ?_
    intro x hx y hy
    simp only [List.head?_cons, Option.mem_def, Option.some.injEq] at hy
    subst hy
    have hx' := hLast x (Option.mem_def.mp hx)
    exact ⟨hx'.1.symm, hx'.2.symm⟩
  · intro r hr
    simp only [StepState.stages_data, List.getLast?_concat, Option.some.injEq] at hr
    subst hr
    exact ⟨rfl, rfl⟩
  · intro hnil
    exact absurd hnil (by simp)
  · intro r hr
    simp only [StepState.stages_data] at hr
    cases hl : s.stages_data with
    | nil =>
      rw [hl] at hr
      simp only [List.nil_append, List.head?_cons, Option.some.injEq] at hr
      subst hr
      have he := hEmpty hl
      exact ⟨he.1, he.2⟩
    | cons hd tl =>
      rw [hl] at hr
      simp only [List.cons_append, List.head?_cons, Option.some.injEq] at hr
      exact hr ▸ hHead hd (by rw [hl]; rfl)

lemma rectLoop_RecInv (p : StageParams) (x0 y0 : ℚ) (fuel : ℕ) (s : StepState)
    (h : RecInv p x0 y0 s) : RecInv p x0 y0 (rectLoop p fuel s) := by
  induction fuel generalizing s with
  | zero => simpa only [rectLoop] using h
  | succ n ih =>
    simp only [rectLoop]
    split_ifs with h1 h2 h3 h4
    · exact RecInv_append p x0 y0 s h .Rectifying _ _ _ _
    · exact ih _ (RecInv_append p x0 y0 s h .Rectifying _ _ _ _)
    · exact RecInv_append p x0 y0 s h .Stripping _ _ _ _
    · exact ih _ (RecInv_append p x0 y0 s h .Stripping _ _ _ _)
    · exact h

lemma stripLoop_RecInv (p : StageParams) (x0 y0 : ℚ) (fuel : ℕ) (s : StepState)
    (h : RecInv p x0 y0 s) : RecInv p x0 y0 (stripLoop p fuel s) := by
  induction fuel generalizing s with
  | zero => simpa only [stripLoop] using h
  | succ n ih =>
    simp only [stripLoop]
    split_ifs with h1
    · exact ih _ (RecInv_append p x0 y0 s h .Stripping _ _ _ _)
    · exact h

lemma rectLoop_data_extend (p : StageParams) (fuel : ℕ) (s : StepState) :
    ∃ l, (rectLoop p fuel s).stages_data = s.stages_data ++ l := by
  induction fuel generalizing s with
  | zero => exact ⟨[], by simp [rectLoop]⟩
  | succ n ih =>
    simp only [rectLoop]
    split_ifs with h1 h2 h3 h4
    · exact ⟨_, rfl⟩
    · obtain ⟨l, hl⟩ := ih _
      exact ⟨_, hl.trans (List.append_assoc _ _ _)⟩
    · exact ⟨_, rfl⟩
    · obtain ⟨l, hl⟩ := ih _
      exact ⟨_, hl.trans (List.append_assoc _ _ _)⟩
    · exact ⟨[], by simp⟩

lemma stripLoop_data_extend (p : StageParams) (fuel : ℕ) (s : StepState) :
    ∃ l, (stripLoop p fuel s).stages_data = s.stages_data ++ l := by
  induction fuel generalizing s with
  | zero => exact ⟨[], by simp [stripLoop]⟩
  | succ n ih =>
    simp only [stripLoop]
    split_ifs with h1
    · obtain ⟨l, hl⟩ := ih _
      exact ⟨_, hl.trans (List.append_assoc _ _ _)⟩
    · exact ⟨[], by simp⟩

lemma rectLoop_head (p : StageParams) (fuel : ℕ) (s : StepState)
    (hnil : s.stages_data = [])
    (hg : p.x_feed_intersect < s.x_current)
    (hb : p.x_feed_intersect ≤ x_from_y_equilibrium s.y_current) :
    (rectLoop p (fuel + 1) s).stages_data.head? =
      some ⟨s.stage_num + 1, .Rectifying, x_from_y_equilibrium s.y_current, s.y_current,
        s.x_current, p.slope_rect * x_from_y_equilibrium s.y_current + p.intercept_rect⟩ := by
  simp only [rectLoop]
  rw [if_pos hg, if_pos hb]
  split_ifs with hbrk
  · simp [hnil]
  · obtain ⟨l, hl⟩ := rectLoop_data_extend p fuel _
    rw [hl, hnil]
    simp

lemma calculate_stages_head (p : StageParams)
    (h1 : p.x_feed_intersect < p.x_d)
    (h2 : p.x_feed_intersect ≤ x_from_y_equilibrium p.x_d) :
    (calculate_stages p).stages_data.head? =
      some ⟨1, .Rectifying, x_from_y_equilibrium p.x_d, p.x_d, p.x_d,
        p.slope_rect * x_from_y_equilibrium p.x_d + p.intercept_rect⟩ := by
  simp only [calculate_stages]
  have hh := rectLoop_head p 49 ⟨p.x_d, p.x_d, 0, 0, 0, none, []⟩ rfl h1 h2
  obtain ⟨l2, hl2⟩ := stripLoop_data_extend p
    (50 - (rectLoop p 50 ⟨p.x_d, p.x_d, 0, 0, 0, none, []⟩).stage_num)
    ⟨(rectLoop p 50 ⟨p.x_d, p.x_d, 0, 0, 0, none, []⟩).x_current,
      (rectLoop p 50 ⟨p.x_d, p.x_d, 0, 0, 0, none, []⟩).y_current,
      (rectLoop p 50 ⟨p.x_d, p.x_d, 0, 0, 0, none, []⟩).stage_num,
      (rectLoop p 50 ⟨p.x_d, p.x_d, 0, 0, 0, none, []⟩).stages_rect,
      (rectLoop p 50 ⟨p.x_d, p.x_d, 0, 0, 0, none, []⟩).stages_strip,
      match (rectLoop p 50 ⟨p.x_d, p.x_d, 0, 0, 0, none, []⟩).feed_stage with
        | none => some (rectLoop p 50 ⟨p.x_d, p.x_d, 0, 0, 0, none, []⟩).stages_rect
        | some f => some f,
      (rectLoop p 50 ⟨p.x_d, p.x_d, 0, 0, 0, none, []⟩).stages_data⟩
  rw [hl2]
  have h50 : rectLoop p 50 ⟨p.x_d, p.x_d, 0, 0, 0, none, []⟩ =
      rectLoop p (49 + 1) ⟨p.x_d, p.x_d, 0, 0, 0, none, []⟩ := rfl
  cases hd : (rectLoop p 50 ⟨p.x_d, p.x_d, 0, 0, 0, none, []⟩).stages_data with
  | nil =>
    rw [← h50, hd] at hh
    simp at hh
  | cons r t =>
    rw [← h50, hd] at hh
    simp only [List.head?_cons, Option.some.injEq] at hh
    show ((r :: t) ++ l2).head? = _
    simp only [List.cons_append, List.head?_cons, Option.some.injEq]
    exact hh

/-! ### Claim C9 (corrected): fields of emitted stage records -/

/-- C9 counterexample: for a concrete parameter set the first emitted record
has x_next = 9/10 (the pre-step x_current) while x_liquid = 15/19 (the
equilibrium-inversion result x_new), so the claim that x_next equals x_new
(x_next == x_liquid) in every emitted record is false. -/
theorem stage_record_x_next_cex :
    (calculate_stages stageParamsA).stages_data.head? =
      some ⟨1, .Rectifying, 15/19, 9/10, 9/10, 321/380⟩ ∧
    ((9:ℚ)/10) ≠ 15/19 := by
  constructor
  · have hh := calculate_stages_head stageParamsA (by norm_num [stageParamsA])
      (by norm_num [stageParamsA, x_from_y_equilibrium, alpha])
    rw [hh]
    norm_num [stageParamsA, x_from_y_equilibrium, alpha]
  · norm_num

/-- C9 (amended): every emitted record has x_liquid equal to the step's
equilibrium inversion of its y_vapor and y_next equal to the operating-line
value at x_liquid; x_next and y_vapor are the PRE-step current point: the
first record carries (x_d, x_d) and each later record carries the previous
record's (x_liquid, y_next), to which the current point advances. -/
theorem stage_record_fields (p : StageParams) :
    (∀ r ∈ (calculate_stages p).stages_data,
        r.x_liquid = x_from_y_equilibrium r.y_vapor ∧
        r.y_next = op_value p r.sectionTag r.x_liquid) ∧
    List.Chain' stage_link (calculate_stages p).stages_data ∧
    (∀ r, (calculate_stages p).stages_data.head? = some r →
        r.x_next = p.x_d ∧ r.y_vapor = p.x_d) := by
  have h0 : RecInv p p.x_d p.x_d ⟨p.x_d, p.x_d, 0, 0, 0, none, []⟩ :=
    ⟨by simp, by simp [List.chain'_nil], by simp, fun _ => ⟨rfl, rfl⟩, by simp⟩
  have h1 := rectLoop_RecInv p p.x_d p.x_d 50 _ h0
  have h2 := stripLoop_RecInv p p.x_d p.x_d
    (50 - (rectLoop p 50 ⟨p.x_d, p.x_d, 0, 0, 0, none, []⟩).stage_num)
    ⟨(rectLoop p 50 ⟨p.x_d, p.x_d, 0, 0, 0, none, []⟩).x_current,
      (rectLoop p 50 ⟨p.x_d, p.x_d, 0, 0, 0, none, []⟩).y_current,
      (rectLoop p 50 ⟨p.x_d, p.x_d, 0, 0, 0, none, []⟩).stage_num,
      (rectLoop p 50 ⟨p.x_d, p.x_d, 0, 0, 0, none, []⟩).stages_rect,
      (rectLoop p 50 ⟨p.x_d, p.x_d, 0, 0, 0, none, []⟩).stages_strip,
      match (rectLoop p 50 ⟨p.x_d, p.x_d, 0, 0, 0, none, []⟩).feed_stage with
        | none => some (rectLoop p 50 ⟨p.x_d, p.x_d, 0, 0, 0, none, []⟩).stages_rect
        | some f => some f,
      (rectLoop p 50 ⟨p.x_d, p.x_d, 0, 0, 0, none, []⟩).stages_data⟩ h1
  obtain ⟨hAll, hChain, _, _, hHead⟩ := h2
  exact ⟨hAll, hChain, hHead⟩

/-- Witness for C9 at the concrete parameter set: the first record exists and
its x_next and y_vapor both equal the starting distillate composition. -/
theorem stage_record_fields_witness :
    (⟨1, .Rectifying, 15/19, 9/10, 9/10, 321/380⟩ : Stage).x_next = stageParamsA.x_d ∧
    (⟨1, .Rectifying, 15/19, 9/10, 9/10, 321/380⟩ : Stage).y_vapor = stageParamsA.x_d := by
  refine (stage_record_fields stageParamsA).2.2 _ ?_
  have hh := calculate_stages_head stageParamsA (by norm_num [stageParamsA])
    (by norm_num [stageParamsA, x_from_y_equilibrium, alpha])
  rw [hh]
  norm_num [stageParamsA, x_from_y_equilibrium, alpha]

/-! ### Claim C7 (corrected): the material balance performs no validation -/

/-- C7 counterexample: with the ordering invariant violated
(x_b = 1/2 > x_f = 3/10) the material balance does not fail: it silently
returns the nonsensical result D = -50, B = 150. -/
theorem material_balance_no_validation_cex :
    material_balance 100 (3/10) (9/10) (1/2) = some (-50, 150) := by
  norm_num [material_balance]

/-- C7 (amended): the material-balance computation fails only when
x_d == x_b (an unguarded ZeroDivisionError, not an InvalidComposition
error); violations of the ordering invariant x_b < x_f < x_d are not
validated and still produce a numeric result. -/
theorem material_balance_no_validation (F x_f x_d x_b : ℚ) :
    material_balance F x_f x_d x_b = none ↔ x_d = x_b := by
  by_cases hc : x_d - x_b = 0
  · simp [material_balance, hc, sub_eq_zero.mp hc]
  · simp [material_balance, hc]
    exact fun h => hc (sub_eq_zero.mpr h)

/-- Witness for C7 (amended) at x_d = x_b = 3/4 and at a valid ordering. -/
theorem material_balance_no_validation_witness :
    material_balance 1 (1/2) (3/4) (3/4) = none :=
  (material_balance_no_validation 1 (1/2) (3/4) (3/4)).mpr rfl

/-! ### Claim C5 (corrected): the lever-rule guard exists only in T-x-y mode -/

/-- C5 counterexample: in the isothermal P-x-y two-phase branch the
degenerate case y_vapor == x_liquid is NOT guarded: at z = 1/2,
x_liquid = y_vapor = 2/5 the division by zero is taken and no fallback 0.5
is produced. -/
theorem lever_rule_pxy_unguarded_cex :
    vapor_fraction_pxy (1/2) (2/5) (2/5) = none ∧
    vapor_fraction_pxy (1/2) (2/5) (2/5) ≠ some (1/2) := by
  refine ⟨?_, ?_⟩ <;> simp [vapor_fraction_pxy]

/-- C5 (amended): only the isobaric T-x-y lever rule guards the degenerate
case y_vapor == x_liquid with the fallback 0.5; the isothermal P-x-y lever
rule computes the same quotient but divides unguarded, producing no finite
result in the degenerate case. -/
theorem lever_rule_guard (z x_liquid y_vapor : ℚ) :
    (y_vapor ≠ x_liquid →
      vapor_fraction_pxy z x_liquid y_vapor =
        some ((y_vapor - z) / (y_vapor - x_liquid)) ∧
      vapor_fraction_txy z x_liquid y_vapor = (y_vapor - z) / (y_vapor - x_liquid)) ∧
    (y_vapor = x_liquid →
      vapor_fraction_pxy z x_liquid y_vapor = none ∧
      vapor_fraction_txy z x_liquid y_vapor = 1/2) := by
  constructor
  · intro h
    have h' : y_vapor - x_liquid ≠ 0 := sub_ne_zero.mpr h
    simp [vapor_fraction_pxy, vapor_fraction_txy, h, h']
  · intro h
    simp [vapor_fraction_pxy, vapor_fraction_txy, h]

/-- Witness for C5 (amended) at a non-degenerate and a degenerate input. -/
theorem lever_rule_guard_witness :
    (vapor_fraction_pxy (1/2) (2/5) (3/5) = some (1/2) ∧
      vapor_fraction_txy (1/2) (2/5) (3/5) = 1/2) ∧
    (vapor_fraction_pxy (1/2) (2/5) (2/5) = none ∧
      vapor_fraction_txy (1/2) (2/5) (2/5) = 1/2) := by
  constructor
  · have h := (lever_rule_guard (1/2) (2/5) (3/5)).1 (by norm_num)
    refine ⟨h.1.trans ?_, h.2.trans ?_⟩ <;> norm_num
  · exact (lever_rule_guard (1/2) (2/5) (2/5)).2 rfl

/-- For positive vapor pressures and a composition in [0,1] the dew-point
pressure never exceeds the bubble-point pressure, so the boundary ordering
assumed by the classifier holds for every input the P-x-y mode produces. -/
lemma py_le_px (p1 p2 x : ℚ) (h1 : 0 < p1) (h2 : 0 < p2)
    (hx0 : 0 ≤ x) (hx1 : x ≤ 1) :
    py_function p1 p2 x ≤ px_function p1 p2 x := by
  unfold py_function px_function
  have hden : 0 < x/p1 + (1-x)/p2 := by
    rcases eq_or_lt_of_le hx0 with h | h
    · rw [← h]
      simp
      positivity
    · have ha : 0 < x/p1 := div_pos h h1
      have hb : 0 ≤ (1-x)/p2 := div_nonneg (by linarith) h2.le
      linarith
  rw [div_le_iff₀ hden]
  have key : (x * p1 + (1 - x) * p2) * (x/p1 + (1-x)/p2) - 1 =
      x * (1-x) * (p1 - p2)^2 / (p1 * p2) := by
    field_simp
    ring
  nlinarith [div_nonneg (mul_nonneg (mul_nonneg hx0 (by linarith : (0:ℚ) ≤ 1 - x))
    (sq_nonneg (p1 - p2))) (mul_pos h1 h2).le, key]

/-! ### Claim C10: strict single-phase comparisons, boundary goes two-phase -/

/-- C10: in P-x-y mode the classifier returns Vapor only when
P_point < P_dew and Liquid only when P_point > P_bubble; in T-x-y mode
Vapor only when T_point > T_dew and Liquid only when T_point < T_bubble;
consequently, whenever the fixed value equals the bubble or the dew
boundary (the boundaries being consistently ordered), the classification is
TwoPhase. -/
theorem classification_boundary_twoPhase
    (P_point P_bubble P_dew T_point T_bubble T_dew : ℚ) :
    (classify_pxy P_point P_bubble P_dew = .vapor → P_point < P_dew) ∧
    (classify_pxy P_point P_bubble P_dew = .liquid → P_bubble < P_point) ∧
    (P_dew ≤ P_bubble →
      classify_pxy P_dew P_bubble P_dew = .twoPhase ∧
      classify_pxy P_bubble P_bubble P_dew = .twoPhase) ∧
    (classify_txy T_point T_bubble T_dew = .vapor → T_dew < T_point) ∧
    (classify_txy T_point T_bubble T_dew = .liquid → T_point < T_bubble) ∧
    (T_bubble ≤ T_dew →
      classify_txy T_bubble T_bubble T_dew = .twoPhase ∧
      classify_txy T_dew T_bubble T_dew = .twoPhase) ∧
    (∀ p1 p2 z : ℚ, 0 < p1 → 0 < p2 → 0 ≤ z → z ≤ 1 →
      classify_pxy (py_function p1 p2 z) (px_function p1 p2 z) (py_function p1 p2 z) =
        .twoPhase ∧
      classify_pxy (px_function p1 p2 z) (px_function p1 p2 z) (py_function p1 p2 z) =
        .twoPhase) := by
  have hbound : ∀ Pb Pd : ℚ, Pd ≤ Pb →
      classify_pxy Pd Pb Pd = .twoPhase ∧ classify_pxy Pb Pb Pd = .twoPhase := by
    intro Pb Pd hord
    constructor
    · simp only [classify_pxy]
      rw [if_neg (lt_irrefl Pd), if_neg (not_lt.mpr hord)]
    · simp only [classify_pxy]
      rw [if_neg (not_lt.mpr hord), if_neg (lt_irrefl Pb)]
  refine ⟨?_, ?_, ?_, ?_, ?_, ?_, ?_⟩
  · intro h
    by_contra hlt
    simp only [classify_pxy, if_neg hlt] at h
    split_ifs at h
  · intro h
    simp only [classify_pxy] at h
    split_ifs at h with h1 h2
    all_goals simp_all
  · exact hbound P_bubble P_dew
  · intro h
    simp only [classify_txy] at h
    split_ifs at h
    all_goals simp_all
  · intro h
    simp only [classify_txy] at h
    split_ifs at h
    all_goals simp_all
  · intro hord
    constructor
    · simp only [classify_txy]
      rw [if_neg (not_lt.mpr hord), if_neg (lt_irrefl T_bubble)]
    · simp only [classify_txy]
      rw [if_neg (lt_irrefl T_dew), if_neg (not_lt.mpr hord)]
  · intro p1 p2 z h1 h2 hz0 hz1
    exact hbound (px_function p1 p2 z) (py_function p1 p2 z)
      (py_le_px p1 p2 z h1 h2 hz0 hz1)

/-- Witness for C10: concrete boundary inputs with P_dew = 1 ≤ P_bubble = 2
and T_bubble = 3 ≤ T_dew = 4 all classify TwoPhase, and a strict vapor case
implies the strict comparison. -/
theorem classification_boundary_twoPhase_witness :
    (classify_pxy 1 2 1 = .twoPhase ∧ classify_pxy 2 2 1 = .twoPhase) ∧
    (classify_txy 3 3 4 = .twoPhase ∧ classify_txy 4 3 4 = .twoPhase) ∧
    (classify_pxy (py_function 2 1 (1/2)) (px_function 2 1 (1/2)) (py_function 2 1 (1/2)) =
      .twoPhase) ∧
    (0 : ℚ) < 1 := by
  refine ⟨(classification_boundary_twoPhase 0 2 1 0 3 4).2.2.1 (by norm_num),
    (classification_boundary_twoPhase 0 2 1 0 3 4).2.2.2.2.2.1 (by norm_num),
    ((classification_boundary_twoPhase 0 2 1 0 3 4).2.2.2.2.2.2 2 1 (1/2)
      (by norm_num) (by norm_num) (by norm_num) (by norm_num)).1,
    (classification_boundary_twoPhase 0 2 1 0 3 4).1 (by simp [classify_pxy])⟩

end ChemEng
